import Mathlib

/-!
Shallow embedding of the `hilog` logging facade (crate `hilog`, files
`src/lib.rs`, `src/ohfmt/mod.rs`, `src/ohfmt/builder.rs`, `src/ohfmt/writer.rs`).

Byte strings are modelled as `List Nat`; fallible operations return
`Except Unit`; the foreign sink call `OH_LOG_Print` is modelled by recording
an `Emission` value.  Parts of the system that live outside `src/`
(the `env_filter` crate, the `log` crate's global slot, and the
`Level → LogLevel` conversion from `hilog-sys`) are modelled from the spec
and marked as such in their doc comments.
-/

set_option autoImplicit false

namespace Hilog

/-- Byte strings (the contents of buffers, tags and messages). -/
abbrev Bytes := List Nat

/-- The bytes of a Lean string literal, used to build concrete byte strings. -/
def strBytes (s : String) : Bytes := s.data.map Char.toNat

/-- `log::Level` (frontend severity; `Error` is most severe). -/
inductive Level where
  | Error | Warn | Info | Debug | Trace
deriving DecidableEq

/-- `log::LevelFilter` (a `Level` or `Off`). -/
inductive LevelFilter where
  | Off | Error | Warn | Info | Debug | Trace
deriving DecidableEq

/-- Numeric severity order used by the `log` crate (`Off = 0 < Error < … < Trace`). -/
def LevelFilter.toNat : LevelFilter → Nat
  | .Off => 0 | .Error => 1 | .Warn => 2 | .Info => 3 | .Debug => 4 | .Trace => 5

/-- The `LevelFilter` corresponding to a `Level`. -/
def Level.toLevelFilter : Level → LevelFilter
  | .Error => .Error | .Warn => .Warn | .Info => .Info | .Debug => .Debug | .Trace => .Trace

/-- `hilog_sys::LogLevel` (host severity ladder). -/
inductive LogLevel where
  | LOG_DEBUG | LOG_INFO | LOG_WARN | LOG_ERROR | LOG_FATAL
deriving DecidableEq

/-- `hilog_sys::LogType`; only `LOG_APP` is used by this crate. -/
inductive LogType where
  | LOG_APP
deriving DecidableEq

/-- Modelled from the spec: the `From<log::Level> for LogLevel` conversion used by
`record.level().into()` lives in the `hilog-sys` crate, outside `src/`.  The spec
gives the total mapping `Error→Error, Warn→Warn, Info→Info, Debug→Debug, Trace→Debug`
(the host has no Trace; it collapses into Debug). -/
def levelToHost : Level → LogLevel
  | .Error => .LOG_ERROR | .Warn => .LOG_WARN | .Info => .LOG_INFO
  | .Debug => .LOG_DEBUG | .Trace => .LOG_DEBUG

/-- `LogDomain`: a u16 service domain (`LogDomain(u16)` in `lib.rs`). -/
structure LogDomain where
  val : Nat
deriving DecidableEq

/-- `LogDomain::new`: valid values are 0 - 0xFFFF. -/
def LogDomain.new (domain : Nat) : LogDomain := ⟨domain % 65536⟩

/-- `Display` of `log::Level` (the `log` crate renders the uppercase name). -/
def Level.display : Level → String
  | .Error => "ERROR" | .Warn => "WARN" | .Info => "INFO" | .Debug => "DEBUG" | .Trace => "TRACE"

/-- One call of the host sink `OH_LOG_Print`, with the arguments this crate passes:
the log type, the mapped level, the numeric domain, the tag C-string, the format
C-string and the single string argument carrying the message. -/
structure Emission where
  log_type : LogType
  level : LogLevel
  domain : Nat
  tag : Bytes
  fmt : Bytes
  msg : Bytes
deriving DecidableEq

/-- The constant format string passed to the host sink. -/
def fmtPublicS : Bytes := strBytes "%\x7bpublic\x7ds"

/-- `hilog_log` in `lib.rs`: wraps `OH_LOG_Print(log_type, level, domain.0, tag,
"%\x7bpublic\x7ds", msg)`; the return value is ignored.  Modelled by recording the call. -/
def hilog_log (log_type : LogType) (level : LogLevel) (domain : LogDomain)
    (tag : Bytes) (msg : Bytes) : Emission :=
  { log_type := log_type, level := level, domain := domain.val,
    tag := tag, fmt := fmtPublicS, msg := msg }

/-- Result type of fallible operations (`std::io::Result`). -/
abbrev IOResult (α : Type) := Except Unit α

/-- `Buffer::write` (`ohfmt/mod.rs`): extends the byte vector and returns `Ok(len)`. -/
def Buffer.write (buf : Bytes) (bs : Bytes) : IOResult (Nat × Bytes) :=
  .ok (bs.length, buf ++ bs)

/-- `Buffer::flush` (`ohfmt/mod.rs`): a no-op returning `Ok(())`. -/
def Buffer.flush (_buf : Bytes) : IOResult Unit := .ok ()

/-- `Buffer::clear` (`ohfmt/mod.rs`): empties the byte vector. -/
def Buffer.clear (_buf : Bytes) : Bytes := []

/-- `HilogWriter::print` (`ohfmt/writer.rs`): wraps the buffer contents in an
unchecked C string and calls `hilog_log` with `LOG_APP`; always returns `Ok(())`.
Modelled as the io result paired with the list of emissions the call performs. -/
def HilogWriter.print (buf : Bytes) (level : LogLevel) (domain : LogDomain)
    (tag : Bytes) : IOResult Unit × List Emission :=
  (.ok (), [hilog_log .LOG_APP level domain tag buf])

/-- `ohfmt::TimestampPrecision`. -/
inductive TimestampPrecision where
  | Seconds | Millis | Micros | Nanos
deriving DecidableEq

/-- The `DefaultFormat` struct of `ohfmt/builder.rs`: configuration flags, the
`written_header_value` state, and the buffer being written. -/
structure DefaultFormat where
  timestamp : Option TimestampPrecision
  module_path : Bool
  target : Bool
  level : Bool
  written_header_value : Bool
  indent : Option Nat
  suffix : Bytes
  buf : Bytes

/-- A `log::Record` as far as this crate reads it: level, target, optional module
path, and the rendered bytes of its `args` display closure. -/
structure Record where
  level : Level
  target : Bytes
  module_path : Option Bytes
  args : Bytes

/-- `DefaultFormat::write_header_value`: the first value is prefixed by `[`,
subsequent values by one space. -/
def DefaultFormat.write_header_value (f : DefaultFormat) (v : Bytes) :
    IOResult DefaultFormat :=
  if !f.written_header_value then
    match Buffer.write f.buf (strBytes "[" ++ v) with
    | .ok (_, b) => .ok { f with written_header_value := true, buf := b }
    | .error e => .error e
  else
    match Buffer.write f.buf (strBytes " " ++ v) with
    | .ok (_, b) => .ok { f with buf := b }
    | .error e => .error e

/-- The rendering of `format_args!("\x7b:<5\x7d", level)`: the level name left-aligned
and padded to width 5 with spaces. -/
def padLevel (l : Level) : Bytes :=
  strBytes l.display ++ List.replicate (5 - (strBytes l.display).length) 32

/-- `DefaultFormat::write_timestamp`: currently a no-op (the timestamp slot is empty). -/
def DefaultFormat.write_timestamp (f : DefaultFormat) : IOResult DefaultFormat :=
  .ok f

/-- `DefaultFormat::write_level`. -/
def DefaultFormat.write_level (f : DefaultFormat) (r : Record) : IOResult DefaultFormat :=
  if !f.level then .ok f
  else f.write_header_value (padLevel r.level)

/-- `DefaultFormat::write_module_path`. -/
def DefaultFormat.write_module_path (f : DefaultFormat) (r : Record) :
    IOResult DefaultFormat :=
  if !f.module_path then .ok f
  else
    match r.module_path with
    | some mp => f.write_header_value mp
    | none => .ok f

/-- `DefaultFormat::write_target` (an empty target writes nothing). -/
def DefaultFormat.write_target (f : DefaultFormat) (r : Record) : IOResult DefaultFormat :=
  if !f.target then .ok f
  else if r.target = [] then .ok f
  else f.write_header_value r.target

/-- `DefaultFormat::finish_header`: closes the bracket with `"] "` when any header
value was written. -/
def DefaultFormat.finish_header (f : DefaultFormat) : IOResult DefaultFormat :=
  if f.written_header_value then
    match Buffer.write f.buf (strBytes "] ") with
    | .ok (_, b) => .ok { f with buf := b }
    | .error e => .error e
  else .ok f

/-- The chunk decomposition performed by `buf.split(|&x| x == b'\n')` in the
`IndentWrapper`: split on newline bytes, keeping empty chunks (so a trailing
newline yields a trailing empty chunk, and the empty input yields one empty chunk). -/
def splitNl : Bytes → List Bytes
  | [] => [[]]
  | c :: rest =>
    match splitNl rest with
    | [] => [[]]
    | h :: t => if c = 10 then [] :: h :: t else (c :: h) :: t

/-- The loop body of `IndentWrapper::write`: before every chunk but the first,
write the suffix followed by `indent_count` spaces, then write the chunk. -/
def writeChunks (suffix : Bytes) (indent_count : Nat) (buf : Bytes) (first : Bool) :
    List Bytes → IOResult Bytes
  | [] => .ok buf
  | chunk :: rest =>
    let step : IOResult Bytes :=
      if first then .ok buf
      else
        match Buffer.write buf (suffix ++ List.replicate indent_count 32) with
        | .ok (_, b) => .ok b
        | .error e => .error e
    match step with
    | .error e => .error e
    | .ok buf1 =>
      match Buffer.write buf1 chunk with
      | .error e => .error e
      | .ok (_, buf2) => writeChunks suffix indent_count buf2 false rest

/-- `DefaultFormat::write_args`: with no indent the body is written verbatim;
with `indent = Some n` it is written through the `IndentWrapper`. -/
def DefaultFormat.write_args (f : DefaultFormat) (r : Record) : IOResult DefaultFormat :=
  match f.indent with
  | none =>
    match Buffer.write f.buf r.args with
    | .ok (_, b) => .ok { f with buf := b }
    | .error e => .error e
  | some indent_count =>
    match writeChunks f.suffix indent_count f.buf true (splitNl r.args) with
    | .ok b => .ok { f with buf := b }
    | .error e => .error e

/-- `DefaultFormat::write`: timestamp slot, header values, header close, body,
then the suffix. -/
def DefaultFormat.write (f : DefaultFormat) (r : Record) : IOResult Bytes :=
  match f.write_timestamp with
  | .error e => .error e
  | .ok f0 =>
  match f0.write_level r with
  | .error e => .error e
  | .ok f1 =>
  match f1.write_module_path r with
  | .error e => .error e
  | .ok f2 =>
  match f2.write_target r with
  | .error e => .error e
  | .ok f3 =>
  match f3.finish_header with
  | .error e => .error e
  | .ok f4 =>
  match f4.write_args r with
  | .error e => .error e
  | .ok f5 =>
  match Buffer.write f5.buf f5.suffix with
  | .error e => .error e
  | .ok (_, b) => .ok b

/-- The type of formatter functions (`ohfmt::HilogFormatFn`): given the current
buffer contents and a record, produce the new buffer contents or an io error. -/
def HilogFormatFn := Bytes → Record → IOResult Bytes

/-- A filter directive: an optional target and a maximum level
(`filter(Some(target), level)` or a default directive when the target is absent). -/
structure Directive where
  target : Option Bytes
  level : LevelFilter
deriving DecidableEq

/-- Modelled from the spec: the built `env_filter::Filter` (the `env_filter` crate
is outside `src/`), holding the compiled list of directives. -/
structure Filter where
  directives : List Directive
deriving DecidableEq

/-- A directive matches a target when its own target is a prefix of the record
target, or when it is the default directive (absent target). -/
def Directive.matches (d : Directive) (target : Bytes) : Bool :=
  match d.target with
  | none => true
  | some p => p.isPrefixOf target

/-- Specificity of a directive: the default directive is least specific; a
targeted directive is more specific the longer its target. -/
def Directive.specificity (d : Directive) : Nat :=
  match d.target with
  | none => 0
  | some p => p.length + 1

/-- Pick the most specific directive from a list (a later directive wins ties). -/
def pickDirective : List Directive → Option Directive
  | [] => none
  | d :: rest =>
    match pickDirective rest with
    | none => some d
    | some b => if d.specificity ≤ b.specificity then some b else some d

/-- Modelled from the spec: `env_filter::Filter::enabled(target, level)` is true
iff some directive matches the target, and the most specific matching directive
has level at least the record level. -/
def Filter.enabled (f : Filter) (target : Bytes) (lvl : Level) : Bool :=
  match pickDirective (f.directives.filter (fun d => d.matches target)) with
  | none => false
  | some d => lvl.toLevelFilter.toNat ≤ d.level.toNat

/-- Maximum of two level filters under the numeric severity order. -/
def LevelFilter.max (a b : LevelFilter) : LevelFilter :=
  if a.toNat ≤ b.toNat then b else a

/-- Modelled from the spec: `env_filter::Filter::filter()` reports the maximum
level across the directives, `Off` when there are none. -/
def Filter.filter (f : Filter) : LevelFilter :=
  f.directives.foldl (fun acc d => LevelFilter.max acc d.level) .Off

/-- The built `Logger` (`lib.rs`): domain, filter and formatter function.
(The `writer` field is the zero-sized `HilogWriter` and is omitted.) -/
structure Logger where
  domain : LogDomain
  filter : Filter
  format : HilogFormatFn

/-- `Logger::filter()`: the maximum `LevelFilter` the logger is configured for. -/
def Logger.filterLevel (L : Logger) : LevelFilter := L.filter.filter

/-- `Log::enabled` for `Logger`: delegates to the filter. -/
def Logger.enabled (L : Logger) (target : Bytes) (lvl : Level) : Bool :=
  L.filter.enabled target lvl

/-- The tag computed inside `Logger::log`:
`record.module_path().and_then(|p| CString::new(p).ok()).unwrap_or_default()` —
the module path when present and free of interior NUL bytes, otherwise empty. -/
def recordTag (r : Record) : Bytes :=
  match r.module_path with
  | none => []
  | some p => if p.contains 0 then [] else p

/-- The `print` closure in `Logger::log`: run the formatter function, on success
print through the writer, and always clear the buffer afterwards.  Returns the
formatter's buffer after the call (always empty) and the emissions performed. -/
def Logger.printRec (L : Logger) (r : Record) (buf : Bytes) : Bytes × List Emission :=
  match L.format buf r with
  | .error _ => (Buffer.clear buf, [])
  | .ok buf2 =>
    let pr := HilogWriter.print buf2 (levelToHost r.level) L.domain (recordTag r)
    (Buffer.clear buf2, pr.2)

/-- The state of the thread-local formatter slot seen by one `log` call:
unavailable (TLS destructors have run), or available with a borrowed flag and
the optional formatter (identified with its buffer contents). -/
inductive SlotState where
  | unavailable
  | available (borrowed : Bool) (contents : Option Bytes)
deriving DecidableEq

/-- Whether the slot's buffer, if a formatter is present, is empty. -/
def SlotState.bufEmpty : SlotState → Bool
  | .available _ (some buf) => buf.isEmpty
  | _ => true

/-- The buffer contents the formatter function is applied to by `log` for a given
slot state: the held formatter's buffer when one is available and not borrowed,
otherwise the fresh buffer of a one-shot formatter. -/
def SlotState.formatBuf : SlotState → Bytes
  | .available false (some buf) => buf
  | _ => []

/-- `Log::log` for `Logger` (`lib.rs`): filter gate, then acquire the
thread-local formatter (reuse it, create and install it, or fall back to a
one-shot stack formatter when the slot is borrowed or TLS is gone), and run the
`print` closure.  Returns the new slot state and the emissions performed. -/
def Logger.log (L : Logger) (r : Record) (slot : SlotState) : SlotState × List Emission :=
  if !(L.enabled r.target r.level) then (slot, [])
  else
    match slot with
    | .available false (some buf) =>
      let out := L.printRec r buf
      (.available false (some out.1), out.2)
    | .available false none =>
      let out := L.printRec r []
      (.available false (some out.1), out.2)
    | .available true c =>
      let out := L.printRec r []
      (.available true c, out.2)
    | .unavailable =>
      let out := L.printRec r []
      (.unavailable, out.2)

/-- `Log::flush` for `Logger`: a no-op. -/
def Logger.flush (_L : Logger) : Unit := ()

/-- The format sub-builder (`ohfmt::builder::Builder`): the default-format
switches, the optional custom format closure, and the single-use flag. -/
structure FormatBuilder where
  format_timestamp : Option TimestampPrecision
  format_module_path : Bool
  format_target : Bool
  format_level : Bool
  format_indent : Option Nat
  custom_format : Option HilogFormatFn
  format_suffix : Bytes
  built : Bool

/-- `Default` for the format sub-builder: timestamp seconds, module path off,
target on, level on, indent 4, no custom format, suffix a newline, not built. -/
def FormatBuilder.default : FormatBuilder :=
  { format_timestamp := some .Seconds, format_module_path := false,
    format_target := true, format_level := true, format_indent := some 4,
    custom_format := none, format_suffix := strBytes "\n", built := false }

/-- The default-format closure produced by the format sub-builder: it constructs
a `DefaultFormat` from the captured switches (with `written_header_value` false
and the formatter's buffer) and runs its `write`. -/
def defaultFormatFn (fb : FormatBuilder) : HilogFormatFn := fun buf r =>
  DefaultFormat.write
    { timestamp := fb.format_timestamp, module_path := fb.format_module_path,
      target := fb.format_target, level := fb.format_level,
      written_header_value := false, indent := fb.format_indent,
      suffix := fb.format_suffix, buf := buf } r

/-- `ohfmt::builder::Builder::build`: aborts (`none`) when already consumed;
otherwise replaces itself with a consumed default and returns the custom format
closure if set, else the default-format closure. -/
def FormatBuilder.build (fb : FormatBuilder) : Option (HilogFormatFn × FormatBuilder) :=
  if fb.built then none
  else
    let out := { FormatBuilder.default with built := true }
    match fb.custom_format with
    | some f => some (f, out)
    | none => some (defaultFormatFn fb, out)

/-- The top-level `Builder` (`lib.rs`): the filter sub-builder's collected
directives, the domain, the format sub-builder, the writer sub-builder's flag,
and the single-use flag. -/
structure BuilderState where
  filter : List Directive
  log_domain : LogDomain
  format : FormatBuilder
  writer_built : Bool
  built : Bool

/-- `Builder::new` (`Default`): no directives, domain 0, default format builder. -/
def Builder.new : BuilderState :=
  { filter := [], log_domain := ⟨0⟩, format := FormatBuilder.default,
    writer_built := false, built := false }

/-- `Builder::set_domain`: stores the domain.  The result is wrapped in `Option`
so that aborting operations can be distinguished; this setter never aborts. -/
def Builder.set_domain (b : BuilderState) (domain : LogDomain) : Option BuilderState :=
  some { b with log_domain := domain }

/-- `Builder::filter`: adds a directive (never aborts). -/
def Builder.addFilter (b : BuilderState) (module : Option Bytes) (level : LevelFilter) :
    Option BuilderState :=
  some { b with filter := b.filter ++ [⟨module, level⟩] }

/-- `Builder::filter_module`: convenience for a targeted directive. -/
def Builder.filter_module (b : BuilderState) (module : Bytes) (level : LevelFilter) :
    Option BuilderState :=
  Builder.addFilter b (some module) level

/-- `Builder::filter_level`: convenience for a default directive. -/
def Builder.filter_level (b : BuilderState) (level : LevelFilter) : Option BuilderState :=
  Builder.addFilter b none level

/-- `Builder::format`: installs a custom format closure (never aborts). -/
def Builder.format (b : BuilderState) (f : HilogFormatFn) : Option BuilderState :=
  some { b with format := { b.format with custom_format := some f } }

/-- `Builder::build` (`lib.rs`): asserts the builder was not consumed (abort
modelled as `none`), marks it consumed, and folds the sub-builders into a Logger. -/
def Builder.build (b : BuilderState) : Option (Logger × BuilderState) :=
  if b.built then none
  else
    match FormatBuilder.build b.format with
    | none => none
    | some (fmtFn, fb2) =>
      some ({ domain := b.log_domain, filter := ⟨b.filter⟩, format := fmtFn },
            { b with built := true, format := fb2, writer_built := true })

/-- Modelled from the spec: the `log` crate's process-wide state (the crate is
outside `src/`): the installed logger, if any, and the global max level. -/
structure GlobalState where
  logger : Option Logger
  max_level : LevelFilter

/-- Modelled from the spec: `log::set_boxed_logger` fails iff a logger is
already installed, and otherwise installs the given one. -/
def set_boxed_logger (gs : GlobalState) (L : Logger) : Except Unit GlobalState :=
  if gs.logger.isSome then .error () else .ok { gs with logger := some L }

/-- Modelled from the spec: `log::set_max_level` sets the global max level. -/
def set_max_level (gs : GlobalState) (l : LevelFilter) : GlobalState :=
  { gs with max_level := l }

/-- `Builder::try_init`: build the logger, read its max-level hint, install it,
and on success set the global max level.  `none` models the abort inherited from
`build` on a consumed builder. -/
def Builder.try_init (b : BuilderState) (gs : GlobalState) :
    Option (Except Unit Unit × GlobalState × BuilderState) :=
  match Builder.build b with
  | none => none
  | some (L, b2) =>
    let max_level := L.filterLevel
    match set_boxed_logger gs L with
    | .ok gs2 => some (.ok (), set_max_level gs2 max_level, b2)
    | .error e => some (.error e, gs, b2)

/-- `Builder::init`: `try_init` with the error promoted to a panic (`none`). -/
def Builder.init (b : BuilderState) (gs : GlobalState) :
    Option (GlobalState × BuilderState) :=
  match Builder.try_init b gs with
  | none => none
  | some (.ok _, gs2, b2) => some (gs2, b2)
  | some (.error _, _, _) => none

/-! Vocabulary used by the theorem statements. -/

/-- Intercalation: the chunks joined with `sep` between every adjacent pair. -/
def joinSep (sep : Bytes) : List Bytes → Bytes
  | [] => []
  | [c] => c
  | c :: rest => c ++ sep ++ joinSep sep rest

/-- Every chunk preceded by `sep` (the shape produced for non-first chunks). -/
def joinAll (sep : Bytes) : List Bytes → Bytes
  | [] => []
  | c :: rest => sep ++ c ++ joinAll sep rest

/-! Concrete fixtures used when instantiating the theorems at sample inputs. -/

/-- A custom formatter that succeeds and leaves the buffer unchanged. -/
def okFormatFn : HilogFormatFn := fun buf _ => .ok buf

/-- A custom formatter that always fails with an io error. -/
def errFormatFn : HilogFormatFn := fun _ _ => .error ()

/-- A sample logger with domain 0, an allow-everything filter and `okFormatFn`. -/
def loggerOkW : Logger :=
  { domain := ⟨0⟩, filter := ⟨[⟨none, .Trace⟩]⟩, format := okFormatFn }

/-- A sample logger whose formatter always errors. -/
def loggerErrW : Logger :=
  { domain := ⟨0⟩, filter := ⟨[⟨none, .Trace⟩]⟩, format := errFormatFn }

/-- A sample record. -/
def recordW : Record :=
  { level := .Info, target := strBytes "t", module_path := some (strBytes "t"),
    args := [] }

/-- The emission `loggerOkW` performs for `recordW` from an unavailable slot. -/
def emissionW : Emission :=
  { log_type := .LOG_APP, level := .LOG_INFO, domain := 0, tag := strBytes "t",
    fmt := fmtPublicS, msg := [] }

/-! Helper lemmas. -/

theorem joinSep_cons (sep c : Bytes) (rest : List Bytes) :
    joinSep sep (c :: rest) = c ++ joinAll sep rest := by
  induction rest generalizing c with
  | nil => simp [joinSep, joinAll]
  | cons c2 r2 ih => simp [joinSep, joinAll, ih, List.append_assoc]

theorem writeChunks_false (sfx : Bytes) (n : Nat) (cs : List Bytes) :
    ∀ buf : Bytes,
      writeChunks sfx n buf false cs
        = .ok (buf ++ joinAll (sfx ++ List.replicate n 32) cs) := by
  induction cs with
  | nil => intro buf; simp [writeChunks, joinAll]
  | cons c rest ih =>
    intro buf
    simp [writeChunks, Buffer.write, joinAll, ih, List.append_assoc]

theorem writeChunks_true (sfx : Bytes) (n : Nat) (cs : List Bytes) (buf : Bytes) :
    writeChunks sfx n buf true cs
      = .ok (buf ++ joinSep (sfx ++ List.replicate n 32) cs) := by
  cases cs with
  | nil => simp [writeChunks, joinSep]
  | cons c rest =>
    simp [writeChunks, Buffer.write, writeChunks_false, joinSep_cons, List.append_assoc]

theorem write_header_value_ok (f : DefaultFormat) (v : Bytes) :
    ∃ f2 : DefaultFormat, f.write_header_value v = .ok f2 ∧ f2.suffix = f.suffix := by
  cases h : f.written_header_value <;>
    simp [DefaultFormat.write_header_value, h, Buffer.write]

theorem write_level_ok (f : DefaultFormat) (r : Record) :
    ∃ f2 : DefaultFormat, f.write_level r = .ok f2 ∧ f2.suffix = f.suffix := by
  cases h : f.level with
  | false => exact ⟨f, by simp [DefaultFormat.write_level, h], rfl⟩
  | true =>
    obtain ⟨f2, h2, hs⟩ := write_header_value_ok f (padLevel r.level)
    exact ⟨f2, by simp [DefaultFormat.write_level, h, h2], hs⟩

theorem write_module_path_ok (f : DefaultFormat) (r : Record) :
    ∃ f2 : DefaultFormat, f.write_module_path r = .ok f2 ∧ f2.suffix = f.suffix := by
  cases h : f.module_path with
  | false => exact ⟨f, by simp [DefaultFormat.write_module_path, h], rfl⟩
  | true =>
    cases hmp : r.module_path with
    | none => exact ⟨f, by simp [DefaultFormat.write_module_path, h, hmp], rfl⟩
    | some mp =>
      obtain ⟨f2, h2, hs⟩ := write_header_value_ok f mp
      exact ⟨f2, by simp [DefaultFormat.write_module_path, h, hmp, h2], hs⟩

theorem write_target_ok (f : DefaultFormat) (r : Record) :
    ∃ f2 : DefaultFormat, f.write_target r = .ok f2 ∧ f2.suffix = f.suffix := by
  cases h : f.target with
  | false => exact ⟨f, by simp [DefaultFormat.write_target, h], rfl⟩
  | true =>
    by_cases ht : r.target = []
    · exact ⟨f, by simp [DefaultFormat.write_target, h, ht], rfl⟩
    · obtain ⟨f2, h2, hs⟩ := write_header_value_ok f r.target
      exact ⟨f2, by simp [DefaultFormat.write_target, h, ht, h2], hs⟩

theorem finish_header_ok (f : DefaultFormat) :
    ∃ f2 : DefaultFormat, f.finish_header = .ok f2 ∧ f2.suffix = f.suffix := by
  cases h : f.written_header_value <;>
    simp [DefaultFormat.finish_header, h, Buffer.write]

theorem write_args_ok (f : DefaultFormat) (r : Record) :
    ∃ f2 : DefaultFormat, f.write_args r = .ok f2 := by
  cases h : f.indent with
  | none =>
    exact ⟨{ f with buf := f.buf ++ r.args },
      by simp [DefaultFormat.write_args, h, Buffer.write]⟩
  | some n =>
    exact ⟨{ f with buf := f.buf ++ joinSep (f.suffix ++ List.replicate n 32) (splitNl r.args) },
      by simp [DefaultFormat.write_args, h, writeChunks_true]⟩

theorem DefaultFormat.write_ok (f : DefaultFormat) (r : Record) :
    ∃ b : Bytes, f.write r = .ok b := by
  obtain ⟨f1, h1, -⟩ := write_level_ok f r
  obtain ⟨f2, h2, -⟩ := write_module_path_ok f1 r
  obtain ⟨f3, h3, -⟩ := write_target_ok f2 r
  obtain ⟨f4, h4, -⟩ := finish_header_ok f3
  obtain ⟨f5, h5⟩ := write_args_ok f4 r
  exact ⟨f5.buf ++ f5.suffix,
    by simp only [DefaultFormat.write, DefaultFormat.write_timestamp,
      h1, h2, h3, h4, h5, Buffer.write]⟩

theorem printRec_ok (L : Logger) (r : Record) (buf b2 : Bytes)
    (h : L.format buf r = .ok b2) :
    L.printRec r buf
      = ([], [{ log_type := .LOG_APP, level := levelToHost r.level,
                domain := L.domain.val, tag := recordTag r,
                fmt := fmtPublicS, msg := b2 }]) := by
  simp [Logger.printRec, h, HilogWriter.print, hilog_log, Buffer.clear]

theorem printRec_err (L : Logger) (r : Record) (buf : Bytes) (e : Unit)
    (h : L.format buf r = .error e) :
    L.printRec r buf = ([], []) := by
  simp [Logger.printRec, h, Buffer.clear]

theorem printRec_fst (L : Logger) (r : Record) (buf : Bytes) :
    (L.printRec r buf).1 = [] := by
  cases h : L.format buf r <;> simp [Logger.printRec, h, Buffer.clear]

theorem log_emissions_of_enabled (L : Logger) (r : Record) (slot : SlotState)
    (h : L.enabled r.target r.level = true) :
    (L.log r slot).2 = (L.printRec r slot.formatBuf).2 := by
  cases slot with
  | unavailable => simp [Logger.log, h, SlotState.formatBuf]
  | available borrowed c =>
    cases borrowed with
    | true => simp [Logger.log, h, SlotState.formatBuf]
    | false => cases c <;> simp [Logger.log, h, SlotState.formatBuf]

theorem log_of_disabled (L : Logger) (r : Record) (slot : SlotState)
    (h : L.enabled r.target r.level = false) :
    L.log r slot = (slot, []) := by
  simp [Logger.log, h]

/-- C1: `Logger::log(r)` performs zero sink emissions when the record's target
and level do not pass the filter; when they do pass (and the configured
formatter function succeeds, as the built-in one always does), it performs
exactly one emission carrying the mapped level, the tag derived from the module
path, and the configured domain; the tag is empty exactly when the module path
is absent or contains an interior NUL byte, the record still being emitted. -/
theorem c1_log_filter_gate_and_single_emission
    (L : Logger) (r : Record) (slot : SlotState)
    (hfmt : ∀ buf : Bytes, ∃ b2 : Bytes, L.format buf r = .ok b2) :
    (L.enabled r.target r.level = false → L.log r slot = (slot, [])) ∧
    (L.enabled r.target r.level = true →
      ∃ msg : Bytes, (L.log r slot).2 =
        [{ log_type := .LOG_APP, level := levelToHost r.level,
           domain := L.domain.val, tag := recordTag r,
           fmt := fmtPublicS, msg := msg }]) ∧
    (r.module_path = none → recordTag r = []) ∧
    (∀ p : Bytes, r.module_path = some p →
      (p.contains 0 = true → recordTag r = []) ∧
      (p.contains 0 = false → recordTag r = p)) := by
  refine ⟨log_of_disabled L r slot, ?_, ?_, ?_⟩
  · intro h
    obtain ⟨b2, hb⟩ := hfmt slot.formatBuf
    refine ⟨b2, ?_⟩
    rw [log_emissions_of_enabled L r slot h, printRec_ok L r slot.formatBuf b2 hb]
  · intro h; simp [recordTag, h]
  · intro p hp
    refine ⟨fun hz => ?_, fun hz => ?_⟩ <;> simp only [recordTag, hp, hz] <;> rfl

theorem c1_witness :
    (loggerOkW.enabled recordW.target recordW.level = false →
      loggerOkW.log recordW .unavailable = (.unavailable, [])) ∧
    (loggerOkW.enabled recordW.target recordW.level = true →
      ∃ msg : Bytes, (loggerOkW.log recordW .unavailable).2 =
        [{ log_type := .LOG_APP, level := levelToHost recordW.level,
           domain := loggerOkW.domain.val, tag := recordTag recordW,
           fmt := fmtPublicS, msg := msg }]) ∧
    (recordW.module_path = none → recordTag recordW = []) ∧
    (∀ p : Bytes, recordW.module_path = some p →
      (p.contains 0 = true → recordTag recordW = []) ∧
      (p.contains 0 = false → recordTag recordW = p)) :=
  c1_log_filter_gate_and_single_emission loggerOkW recordW .unavailable
    (fun buf => ⟨buf, rfl⟩)

/-- C2: every emission that `log` performs goes to the host with
`log_type = LOG_APP`, the constant format string `"%\x7bpublic\x7ds"`, and the fully
formatted message as the single separate string argument. -/
theorem c2_emission_fixed_format_string (L : Logger) (r : Record) (slot : SlotState) :
    ∀ e ∈ (L.log r slot).2,
      e.log_type = .LOG_APP ∧ e.fmt = fmtPublicS ∧
      L.format slot.formatBuf r = .ok e.msg := by
  intro e he
  cases h : L.enabled r.target r.level with
  | false => rw [log_of_disabled L r slot h] at he; simp at he
  | true =>
    rw [log_emissions_of_enabled L r slot h] at he
    cases hf : L.format slot.formatBuf r with
    | error u => rw [printRec_err L r slot.formatBuf u hf] at he; simp at he
    | ok b2 =>
      rw [printRec_ok L r slot.formatBuf b2 hf] at he
      simp only [List.mem_singleton] at he
      subst he
      exact ⟨rfl, rfl, rfl⟩

theorem c2_witness :
    emissionW ∈ (loggerOkW.log recordW .unavailable).2 ∧
    (emissionW.log_type = .LOG_APP ∧ emissionW.fmt = fmtPublicS ∧
      loggerOkW.format (SlotState.formatBuf .unavailable) recordW
        = .ok emissionW.msg) :=
  ⟨by decide,
   c2_emission_fixed_format_string loggerOkW recordW .unavailable emissionW
     (by decide)⟩

/-- C3: a formatter that fails with an io error makes `log` perform no sink
emission; and whenever the slot is seen with an empty buffer going in (the
between-records invariant), any `log` call — success, error or filtered — leaves
the thread-local buffer, if one is present, with length zero.  `log` itself is a
total function: no error reaches the caller. -/
theorem c3_errors_swallowed_buffer_cleared (L : Logger) (r : Record)
    (slot : SlotState) (hpre : slot.bufEmpty = true) :
    ((∀ buf : Bytes, ∃ e : Unit, L.format buf r = .error e) →
      (L.log r slot).2 = []) ∧
    (L.log r slot).1.bufEmpty = true := by
  constructor
  · intro herr
    cases h : L.enabled r.target r.level with
    | false => rw [log_of_disabled L r slot h]
    | true =>
      obtain ⟨e, he⟩ := herr slot.formatBuf
      rw [log_emissions_of_enabled L r slot h,
        printRec_err L r slot.formatBuf e he]
  · cases h : L.enabled r.target r.level with
    | false => rw [log_of_disabled L r slot h]; exact hpre
    | true =>
      cases slot with
      | unavailable => simp [Logger.log, h, SlotState.bufEmpty]
      | available borrowed c =>
        cases borrowed with
        | true =>
          simpa [Logger.log, h, SlotState.bufEmpty] using hpre
        | false =>
          cases c <;>
            simp [Logger.log, h, SlotState.bufEmpty, printRec_fst]

theorem c3_witness :
    ((∀ buf : Bytes, ∃ e : Unit, loggerErrW.format buf recordW = .error e) →
      (loggerErrW.log recordW (.available false none)).2 = []) ∧
    (loggerErrW.log recordW (.available false none)).1.bufEmpty = true :=
  c3_errors_swallowed_buffer_cleared loggerErrW recordW (.available false none) rfl

/-- C6: when the thread-local slot is currently borrowed (reentrant call) or
unavailable (TLS destructors have run), `log` uses a one-shot stack formatter,
leaves the slot exactly as it was, and still emits the record exactly once. -/
theorem c6_reentrancy_and_tls_teardown (L : Logger) (r : Record) (c : Option Bytes)
    (hen : L.enabled r.target r.level = true)
    (hfmt : ∃ b2 : Bytes, L.format [] r = .ok b2) :
    ((L.log r (.available true c)).1 = .available true c ∧
      ((L.log r (.available true c)).2).length = 1) ∧
    ((L.log r .unavailable).1 = .unavailable ∧
      ((L.log r .unavailable).2).length = 1) := by
  obtain ⟨b2, hb⟩ := hfmt
  refine ⟨⟨?_, ?_⟩, ⟨?_, ?_⟩⟩ <;>
    simp [Logger.log, hen, printRec_ok L r [] b2 hb]

theorem c6_witness :
    ((loggerOkW.log recordW (.available true (some (strBytes "partial")))).1
        = .available true (some (strBytes "partial")) ∧
      ((loggerOkW.log recordW
          (.available true (some (strBytes "partial")))).2).length = 1) ∧
    ((loggerOkW.log recordW .unavailable).1 = .unavailable ∧
      ((loggerOkW.log recordW .unavailable).2).length = 1) :=
  c6_reentrancy_and_tls_teardown loggerOkW recordW (some (strBytes "partial"))
    rfl ⟨[], rfl⟩

/-- C4: under the default format with all header flags on, a record with empty
body, level `Info`, module path `m` and non-empty target `m` produces exactly
the bytes `"[INFO  m m] "` followed by the configured suffix — the level padded
to width 5 left-aligned, then the module path, then the target, each prefixed
by `[` (first value) or a single space, closed by `"] "`. -/
theorem c4_default_format_header_bytes (m sfx : Bytes) (ind : Option Nat)
    (ts : Option TimestampPrecision) (hm : m ≠ []) :
    defaultFormatFn
      { format_timestamp := ts, format_module_path := true, format_target := true,
        format_level := true, format_indent := ind, custom_format := none,
        format_suffix := sfx, built := false } []
      { level := .Info, target := m, module_path := some m, args := [] }
      = .ok (strBytes "[INFO  " ++ m ++ strBytes " " ++ m ++ strBytes "] " ++ sfx) := by
  have hjoin : ∀ X : Bytes, strBytes "[" ++ (padLevel Level.Info ++ (strBytes " " ++ X))
      = strBytes "[INFO  " ++ X := by
    intro X
    rw [← List.append_assoc, ← List.append_assoc]
    congr 1
  cases ind with
  | none =>
    simp [defaultFormatFn, DefaultFormat.write, DefaultFormat.write_timestamp,
      DefaultFormat.write_level, DefaultFormat.write_header_value,
      DefaultFormat.write_module_path, DefaultFormat.write_target,
      DefaultFormat.finish_header, DefaultFormat.write_args, Buffer.write, hm,
      List.append_assoc, hjoin]
  | some n =>
    simp [defaultFormatFn, DefaultFormat.write, DefaultFormat.write_timestamp,
      DefaultFormat.write_level, DefaultFormat.write_header_value,
      DefaultFormat.write_module_path, DefaultFormat.write_target,
      DefaultFormat.finish_header, DefaultFormat.write_args, Buffer.write, hm,
      writeChunks_true, splitNl, joinSep, List.append_assoc, hjoin]

theorem c4_witness :
    strBytes "m" ≠ [] ∧
    defaultFormatFn
      { format_timestamp := some .Seconds, format_module_path := true,
        format_target := true, format_level := true, format_indent := some 4,
        custom_format := none, format_suffix := strBytes "\n", built := false } []
      { level := .Info, target := strBytes "m", module_path := some (strBytes "m"),
        args := [] }
      = .ok (strBytes "[INFO  " ++ strBytes "m" ++ strBytes " " ++ strBytes "m"
          ++ strBytes "] " ++ strBytes "\n") :=
  ⟨by decide,
   c4_default_format_header_bytes (strBytes "m") (strBytes "\n") (some 4)
     (some .Seconds) (by decide)⟩

/-- C5: in the default format, `write_args` with `format_indent = Some n` splits
the body on newline bytes and inserts the suffix followed by `n` spaces between
every pair of adjacent chunks (a trailing empty chunk from a terminal newline is
preserved by `splitNl`, yielding an extra indent and no extra body bytes); in
particular the body `"a\nb\nc"` becomes `"a" ++ suffix ++ spaces ++ "b" ++
suffix ++ spaces ++ "c"`; with `format_indent = None` the body is written
verbatim. -/
theorem c5_indent_splits_body_on_newlines :
    (∀ (ts : Option TimestampPrecision) (mp tg lv whv : Bool) (n : Nat)
        (sfx buf : Bytes) (r : Record),
      DefaultFormat.write_args
          { timestamp := ts, module_path := mp, target := tg, level := lv,
            written_header_value := whv, indent := some n, suffix := sfx,
            buf := buf } r
        = .ok { timestamp := ts, module_path := mp, target := tg, level := lv,
                written_header_value := whv, indent := some n, suffix := sfx,
                buf := buf ++ joinSep (sfx ++ List.replicate n 32) (splitNl r.args) }) ∧
    (∀ (ts : Option TimestampPrecision) (mp tg lv whv : Bool) (n : Nat)
        (sfx buf : Bytes) (lvl : Level) (tgt : Bytes) (mpo : Option Bytes),
      DefaultFormat.write_args
          { timestamp := ts, module_path := mp, target := tg, level := lv,
            written_header_value := whv, indent := some n, suffix := sfx,
            buf := buf }
          { level := lvl, target := tgt, module_path := mpo,
            args := strBytes "a\nb\nc" }
        = .ok { timestamp := ts, module_path := mp, target := tg, level := lv,
                written_header_value := whv, indent := some n, suffix := sfx,
                buf := buf ++ strBytes "a" ++ sfx ++ List.replicate n 32
                  ++ strBytes "b" ++ sfx ++ List.replicate n 32 ++ strBytes "c" }) ∧
    (∀ (ts : Option TimestampPrecision) (mp tg lv whv : Bool)
        (sfx buf : Bytes) (r : Record),
      DefaultFormat.write_args
          { timestamp := ts, module_path := mp, target := tg, level := lv,
            written_header_value := whv, indent := none, suffix := sfx,
            buf := buf } r
        = .ok { timestamp := ts, module_path := mp, target := tg, level := lv,
                written_header_value := whv, indent := none, suffix := sfx,
                buf := buf ++ r.args }) := by
  refine ⟨?_, ?_, ?_⟩
  · intro ts mp tg lv whv n sfx buf r
    simp [DefaultFormat.write_args, writeChunks_true]
  · intro ts mp tg lv whv n sfx buf lvl tgt mpo
    have hs : splitNl (strBytes "a\nb\nc")
        = [strBytes "a", strBytes "b", strBytes "c"] := by decide
    simp [DefaultFormat.write_args, writeChunks_true, hs, joinSep, List.append_assoc]
  · intro ts mp tg lv whv sfx buf r
    simp [DefaultFormat.write_args, Buffer.write]

/-- C10: `Buffer::write` returns `Ok(len)` and appends exactly the given bytes,
`Buffer::flush` and `HilogWriter::print` always return `Ok`; consequently the
formatter function produced without a custom closure (the default format) never
returns an error, so the error branch of `Logger::log` is reachable only through
a custom format closure. -/
theorem c10_builtin_operations_infallible :
    (∀ buf bs : Bytes, Buffer.write buf bs = .ok (bs.length, buf ++ bs)) ∧
    (∀ buf : Bytes, Buffer.flush buf = .ok ()) ∧
    (∀ (buf : Bytes) (lvl : LogLevel) (dom : LogDomain) (tag : Bytes),
      (HilogWriter.print buf lvl dom tag).1 = .ok ()) ∧
    (∀ fb : FormatBuilder, fb.custom_format = none →
      ∀ (fn : HilogFormatFn) (fb2 : FormatBuilder),
        FormatBuilder.build fb = some (fn, fb2) →
        ∀ (buf : Bytes) (r : Record), ∃ b2 : Bytes, fn buf r = .ok b2) := by
  refine ⟨fun _ _ => rfl, fun _ => rfl, fun _ _ _ _ => rfl, ?_⟩
  intro fb hcf fn fb2 hb buf r
  cases h : fb.built with
  | true => simp [FormatBuilder.build, h] at hb
  | false =>
    simp only [FormatBuilder.build, h, hcf, Bool.false_eq_true, if_false,
      Option.some.injEq, Prod.mk.injEq] at hb
    obtain ⟨hfn, -⟩ := hb
    subst hfn
    exact DefaultFormat.write_ok _ r

theorem max_ge_left (a b : LevelFilter) : a.toNat ≤ (LevelFilter.max a b).toNat := by
  unfold LevelFilter.max; split <;> omega

theorem max_ge_right (a b : LevelFilter) : b.toNat ≤ (LevelFilter.max a b).toNat := by
  unfold LevelFilter.max; split <;> omega

theorem max_cases_lf (a b : LevelFilter) :
    LevelFilter.max a b = a ∨ LevelFilter.max a b = b := by
  unfold LevelFilter.max; split <;> simp

theorem max_off_lf (x : LevelFilter) : LevelFilter.max .Off x = x := by
  cases x <;> rfl

theorem foldl_max_ge (ds : List Directive) :
    ∀ acc : LevelFilter,
      acc.toNat ≤ (ds.foldl (fun a d => LevelFilter.max a d.level) acc).toNat ∧
      ∀ d ∈ ds,
        d.level.toNat ≤ (ds.foldl (fun a d => LevelFilter.max a d.level) acc).toNat := by
  induction ds with
  | nil => intro acc; exact ⟨Nat.le_refl _, by simp⟩
  | cons d rest ih =>
    intro acc
    have h := ih (LevelFilter.max acc d.level)
    refine ⟨?_, ?_⟩
    · simpa using Nat.le_trans (max_ge_left acc d.level) h.1
    · intro d2 hd2
      rcases List.mem_cons.mp hd2 with h2 | h2
      · subst h2
        simpa using Nat.le_trans (max_ge_right acc d2.level) h.1
      · simpa using h.2 d2 h2

theorem foldl_max_mem (ds : List Directive) :
    ∀ acc : LevelFilter,
      ds.foldl (fun a d => LevelFilter.max a d.level) acc = acc ∨
      ∃ d ∈ ds, ds.foldl (fun a d => LevelFilter.max a d.level) acc = d.level := by
  induction ds with
  | nil => intro acc; exact Or.inl rfl
  | cons d rest ih =>
    intro acc
    rcases ih (LevelFilter.max acc d.level) with h2 | ⟨d2, hd2, h2⟩
    · rcases max_cases_lf acc d.level with hm | hm
      · left; simpa [hm] using h2
      · right
        exact ⟨d, List.mem_cons_self d rest, by simpa [hm] using h2⟩
    · right
      exact ⟨d2, List.mem_cons_of_mem d hd2, by simpa using h2⟩

theorem c10_witness :
    FormatBuilder.default.custom_format = none ∧
    (∃ b2 : Bytes,
      defaultFormatFn FormatBuilder.default []
        { level := .Info, target := strBytes "t", module_path := none,
          args := strBytes "x" } = .ok b2) :=
  ⟨rfl,
   c10_builtin_operations_infallible.2.2.2 FormatBuilder.default rfl
     (defaultFormatFn FormatBuilder.default)
     { FormatBuilder.default with built := true } rfl []
     { level := .Info, target := strBytes "t", module_path := none,
       args := strBytes "x" }⟩

/-- C7: `try_init` on a fresh builder builds the Logger and installs it; when no
logger is installed it succeeds and sets the global max level to the filter's
max-level hint; when a logger is already installed it returns a recoverable
error and leaves the global state (including the max level) unchanged; `init`
is identical except that it panics (modelled as `none`) on that error. -/
theorem c7_try_init_installs_and_sets_max_level
    (b : BuilderState) (gs : GlobalState)
    (hb : b.built = false) (hf : b.format.built = false) :
    (gs.logger = none →
      ∃ (L : Logger) (b2 : BuilderState),
        Builder.build b = some (L, b2) ∧
        Builder.try_init b gs
          = some (.ok (), { logger := some L, max_level := L.filterLevel }, b2) ∧
        Builder.init b gs
          = some ({ logger := some L, max_level := L.filterLevel }, b2)) ∧
    (∀ L0 : Logger, gs.logger = some L0 →
      ∃ b2 : BuilderState,
        Builder.try_init b gs = some (.error (), gs, b2) ∧
        Builder.init b gs = none) := by
  obtain ⟨L, b2, hLb⟩ : ∃ (L : Logger) (b2 : BuilderState),
      Builder.build b = some (L, b2) := by
    cases hcf : b.format.custom_format with
    | none =>
      refine ⟨{ domain := b.log_domain, filter := ⟨b.filter⟩, format := defaultFormatFn b.format }, ?_⟩
      refine ⟨{ b with built := true, writer_built := true, format := { FormatBuilder.default with built := true } }, ?_⟩
      simp [Builder.build, hb, FormatBuilder.build, hf, hcf]
    | some f =>
      refine ⟨{ domain := b.log_domain, filter := ⟨b.filter⟩, format := f }, ?_⟩
      refine ⟨{ b with built := true, writer_built := true, format := { FormatBuilder.default with built := true } }, ?_⟩
      simp [Builder.build, hb, FormatBuilder.build, hf, hcf]
  obtain ⟨lg, ml⟩ := gs
  constructor
  · intro hnone
    simp only at hnone
    subst hnone
    refine ⟨L, b2, hLb, ?_, ?_⟩
    · simp [Builder.try_init, hLb, set_boxed_logger, set_max_level]
    · simp [Builder.init, Builder.try_init, hLb, set_boxed_logger, set_max_level]
  · intro L0 hsome
    simp only at hsome
    subst hsome
    refine ⟨b2, ?_, ?_⟩
    · simp [Builder.try_init, hLb, set_boxed_logger]
    · simp [Builder.init, Builder.try_init, hLb, set_boxed_logger]

theorem c7_witness :
    (({ logger := none, max_level := .Off : GlobalState }).logger = none →
      ∃ (L : Logger) (b2 : BuilderState),
        Builder.build Builder.new = some (L, b2) ∧
        Builder.try_init Builder.new { logger := none, max_level := .Off }
          = some (.ok (), { logger := some L, max_level := L.filterLevel }, b2) ∧
        Builder.init Builder.new { logger := none, max_level := .Off }
          = some ({ logger := some L, max_level := L.filterLevel }, b2)) ∧
    (∀ L0 : Logger,
      ({ logger := none, max_level := .Off : GlobalState }).logger = some L0 →
      ∃ b2 : BuilderState,
        Builder.try_init Builder.new { logger := none, max_level := .Off }
          = some (.error (), { logger := none, max_level := .Off }, b2) ∧
        Builder.init Builder.new { logger := none, max_level := .Off } = none) :=
  c7_try_init_installs_and_sets_max_level Builder.new
    { logger := none, max_level := .Off } rfl rfl

/-- C8 counterexample: the claim says every operation invoked on a `Consumed`
builder aborts, including setters such as `set_domain`; but on the consumed
builder state returned by `build()` on a fresh builder, `set_domain` returns
normally (only `build()` checks the consumed flag). -/
theorem c8_counterexample :
    ∃ (L : Logger) (b2 : BuilderState),
      Builder.build Builder.new = some (L, b2) ∧ b2.built = true ∧
      Builder.set_domain b2 (LogDomain.new 5)
        = some { b2 with log_domain := LogDomain.new 5 } :=
  ⟨_, _, rfl, rfl, rfl⟩

/-- C8 (amended): the Builder is single-use through `build()`: a single `build()`
on a fresh builder always succeeds, a second `build()` aborts; but setters such
as `set_domain` never abort, even on a consumed builder — only `build()` checks
the consumed flag. -/
theorem c8_builder_single_use (b : BuilderState)
    (hb : b.built = false) (hf : b.format.built = false) :
    (Builder.build b).isSome = true ∧
    (∀ (L : Logger) (b2 : BuilderState), Builder.build b = some (L, b2) →
      Builder.build b2 = none) ∧
    (∀ (b3 : BuilderState) (d : LogDomain), (Builder.set_domain b3 d).isSome = true) := by
  refine ⟨?_, ?_, fun b3 d => rfl⟩
  · cases hcf : b.format.custom_format <;>
      simp [Builder.build, hb, FormatBuilder.build, hf, hcf]
  · intro L b2 h
    have hb2 : b2.built = true := by
      cases hcf : b.format.custom_format <;>
        simp [Builder.build, hb, FormatBuilder.build, hf, hcf] at h <;>
        simp [← h.2]
    simp [Builder.build, hb2]

theorem c8_witness :
    (Builder.build Builder.new).isSome = true ∧
    (∀ (L : Logger) (b2 : BuilderState), Builder.build Builder.new = some (L, b2) →
      Builder.build b2 = none) ∧
    (∀ (b3 : BuilderState) (d : LogDomain),
      (Builder.set_domain b3 d).isSome = true) :=
  c8_builder_single_use Builder.new rfl rfl

/-- C9: the Logger's max-level hint (`Logger::filter`) is the maximum level
across all configured filter directives — every directive's level is bounded by
it and, when directives exist, it is attained by one of them — and it equals
`Off` when no directive was configured. -/
theorem c9_max_level_hint (dom : LogDomain) (fn : HilogFormatFn)
    (ds : List Directive) :
    (ds = [] → Logger.filterLevel ⟨dom, ⟨ds⟩, fn⟩ = .Off) ∧
    (∀ d ∈ ds, d.level.toNat ≤ (Logger.filterLevel ⟨dom, ⟨ds⟩, fn⟩).toNat) ∧
    (ds ≠ [] → ∃ d ∈ ds, Logger.filterLevel ⟨dom, ⟨ds⟩, fn⟩ = d.level) := by
  refine ⟨?_, ?_, ?_⟩
  · intro h; subst h; rfl
  · intro d hd
    exact (foldl_max_ge ds .Off).2 d hd
  · intro hne
    cases ds with
    | nil => exact absurd rfl hne
    | cons d rest =>
      show ∃ d2 ∈ d :: rest,
        (d :: rest).foldl (fun a d => LevelFilter.max a d.level) .Off = d2.level
      rw [List.foldl_cons, max_off_lf]
      rcases foldl_max_mem rest d.level with h2 | ⟨d2, hd2, h2⟩
      · exact ⟨d, List.mem_cons_self d rest, h2⟩
      · exact ⟨d2, List.mem_cons_of_mem d hd2, h2⟩

theorem c9_witness :
    (([⟨none, .Info⟩, ⟨some (strBytes "m"), .Warn⟩] : List Directive) = [] →
      Logger.filterLevel ⟨⟨0⟩, ⟨[⟨none, .Info⟩, ⟨some (strBytes "m"), .Warn⟩]⟩, okFormatFn⟩
        = .Off) ∧
    (∀ d ∈ ([⟨none, .Info⟩, ⟨some (strBytes "m"), .Warn⟩] : List Directive),
      d.level.toNat ≤ (Logger.filterLevel
        ⟨⟨0⟩, ⟨[⟨none, .Info⟩, ⟨some (strBytes "m"), .Warn⟩]⟩, okFormatFn⟩).toNat) ∧
    (([⟨none, .Info⟩, ⟨some (strBytes "m"), .Warn⟩] : List Directive) ≠ [] →
      ∃ d ∈ ([⟨none, .Info⟩, ⟨some (strBytes "m"), .Warn⟩] : List Directive),
        Logger.filterLevel ⟨⟨0⟩, ⟨[⟨none, .Info⟩, ⟨some (strBytes "m"), .Warn⟩]⟩, okFormatFn⟩
          = d.level) :=
  c9_max_level_hint ⟨0⟩ okFormatFn [⟨none, .Info⟩, ⟨some (strBytes "m"), .Warn⟩]

end Hilog
